import Mathlib

/- Verification development for the analytical core of `app.py`
   (north-cp-map-calc): series normalization, peak-interval extraction,
   the two-parameter critical-power model, intensity domains, the
   depletion table and the oxygen demand/uptake curves.

   Machine floats are modelled as exact rationals.  The pandas/numpy
   operations used by the script are embedded by their observable
   semantics:
   - `Series.rolling(w).mean()` produces the trailing mean of every full
     window (the first `w - 1` entries are NaN and are skipped by
     `idxmax`, so they are omitted here; entry `j` below corresponds to
     pandas index `j + w - 1`);
   - `Series.idxmax()` returns the first index attaining the maximum;
   - `.loc[s:e]` label slicing includes BOTH endpoints and clips at the
     end of the index;
   - an uncaught runtime error (pandas `ValueError` from `idxmax` on an
     all-NaN series, `KeyError` from a column access on an empty frame)
     is modelled as `Except.error` / `Option.none`. -/

/-- Raw field value decoded from one .fit record: the field can be
absent, can hold NaN/None, or can hold a number. -/
inductive RawVal where
  | missing
  | nan
  | val (q : ℚ)
deriving DecidableEq

/-- Raw record: the `timestamp` and `power` fields of one `record`
message (app.py line 30 keeps exactly these two fields). -/
structure RawRecord where
  timestamp : RawVal
  power : RawVal
deriving DecidableEq

/-- app.py line 31: the record is kept iff both the "timestamp" and the
"power" keys are present in the decoded dict (a NaN/None value still
counts as present). -/
def bothPresent (r : RawRecord) : Bool :=
  match r.timestamp, r.power with
  | .missing, _ => false
  | _, .missing => false
  | _, _ => true

/-- Rows surviving `df.dropna()` (app.py line 35): both fields must be
actual numbers; extracts the power value. -/
def rowPower (r : RawRecord) : Option ℚ :=
  match r.timestamp, r.power with
  | .val _, .val p => some p
  | _, _ => none

/-- The valid power samples of a record list, in order: records missing
a field or holding NaN are discarded. -/
def validPowers (rs : List RawRecord) : List ℚ :=
  rs.filterMap rowPower

/-- app.py lines 27-38, one file: keep the records having both fields
(line 31), build the DataFrame and drop NaN rows (line 35).  When no
record has both fields the DataFrame has no columns at all, so
`df['power']` on line 37 raises `KeyError` - modelled as `.error`. -/
def processFile (rs : List RawRecord) : Except String (List ℚ) :=
  let records := rs.filter bothPresent
  if records.isEmpty then .error "KeyError: power"
  else .ok (validPowers records)

/-- app.py lines 26-40: process the uploaded files in the supplied
order, aborting at the first failing file, then concatenate
(`pd.concat(all_data, ignore_index=True)`). -/
def normalizeFiles : List (List RawRecord) → Except String (List ℚ)
  | [] => .ok []
  | f :: fs =>
    match processFile f with
    | .error e => .error e
    | .ok l =>
      match normalizeFiles fs with
      | .error e => .error e
      | .ok ls => .ok (l ++ ls)

/-- app.py line 41: attach the synthetic seconds index 0, 1, 2, ...
(`combined_power['seconds'] = np.arange(len(combined_power))`). -/
def combinedSeries (files : List (List RawRecord)) :
    Except String (List (Nat × ℚ)) :=
  match normalizeFiles files with
  | .error e => .error e
  | .ok l => .ok l.enum

/-- Whether an `Except` result is a failure. -/
def isErr {α : Type} (x : Except String α) : Bool :=
  match x with
  | .error _ => true
  | .ok _ => false

/-- Running prefix sums of a rational list, starting from accumulator
`c` (an entry per prefix, including the empty one). -/
def prefixSumsFrom (c : ℚ) : List ℚ → List ℚ
  | [] => [c]
  | a :: l => c :: prefixSumsFrom (c + a) l

/-- Prefix sums starting at 0: entry `j` is the sum of the first `j`
elements. -/
def prefixSums (l : List ℚ) : List ℚ :=
  prefixSumsFrom 0 l

/-- Sums of every contiguous window of length `w` (sliding-window form:
entry `j` is the sum of `l[j .. j+w)`; see `rollingSums_eq`). -/
def rollingSums (w : Nat) (l : List ℚ) : List ℚ :=
  List.zipWith (fun a b => a - b) ((prefixSums l).drop w) (prefixSums l)

/-- app.py line 21, `df['power'].rolling(window=w).mean()`: the trailing
mean of every full window of length `w`.  Entry `j` is the mean of
`l[j .. j+w)` and corresponds to pandas index `j + w - 1`; the `w - 1`
leading NaN entries of the pandas series are omitted (idxmax skips
them). -/
def rollingMeans (w : Nat) (l : List ℚ) : List ℚ :=
  (rollingSums w l).map (fun s => s / (w : ℚ))

/-- Helper for `idxmax`: `i` is the index of the head of the remaining
list, `bi`/`bv` the index and value of the best element so far; only a
strictly larger value replaces the current best, so the FIRST maximum
wins (pandas `Series.idxmax` tie rule). -/
def idxmaxAux : Nat → Nat → ℚ → List ℚ → Nat
  | _, bi, _, [] => bi
  | i, bi, bv, a :: l =>
    if bv < a then idxmaxAux (i + 1) i a l else idxmaxAux (i + 1) bi bv l

/-- pandas `Series.idxmax`: the first index attaining the maximum;
`none` models the `ValueError` raised on a series with no valid entry. -/
def idxmax : List ℚ → Option Nat
  | [] => none
  | a :: l => some (idxmaxAux 1 0 a l)

/-- app.py lines 20-24, `get_peak_interval(df, window)`: `peak_start =
rolling.idxmax() - window + 1`, `peak_end = peak_start + window`.  In
terms of `rollingMeans` (whose entry `j` sits at pandas index
`j + w - 1`) this is `(j, j + w)`.  `none` models the `ValueError`
raised by `idxmax` when every rolling entry is NaN, i.e. when the
series is shorter than the window. -/
def get_peak_interval (l : List ℚ) (w : Nat) : Option (Nat × Nat) :=
  match idxmax (rollingMeans w l) with
  | none => none
  | some j => some (j, j + w)

/-- app.py lines 55-57, `combined_power.loc[s:e, 'power'].mean()`:
pandas `.loc` label slicing includes BOTH endpoints and clips at the end
of the index, so this is the mean of the samples at indices
`s, s+1, ..., min e (length - 1)`. -/
def locMean (l : List ℚ) (s e : Nat) : ℚ :=
  let seg := (l.drop s).take (e + 1 - s)
  seg.sum / (seg.length : ℚ)

/-- app.py lines 60-64: `t1, t2 = 180, 720`; `cp`, `w_prime`,
`map_watts`, `frac_util` from the three peak means. -/
def cpModel (p3 p6 p12 : ℚ) : ℚ × ℚ × ℚ × ℚ :=
  let t1 : ℚ := 180
  let t2 : ℚ := 720
  let cp := (p12 * t2 - p3 * t1) / (t2 - t1)
  let w_prime := (p3 - cp) * t1
  let map_watts := p6
  let frac_util := cp / map_watts
  (cp, w_prime, map_watts, frac_util)

/-- app.py lines 44-64: extract the three peak intervals (windows 180,
360, 720), take their `.loc`-slice means, and derive the model.  Any
extraction failure aborts the run. -/
def analyze (l : List ℚ) : Option (ℚ × ℚ × ℚ × ℚ) :=
  match get_peak_interval l 180, get_peak_interval l 360,
      get_peak_interval l 720 with
  | some (s3, e3), some (s6, e6), some (s12, e12) =>
    some (cpModel (locMean l s3 e3) (locMean l s6 e6) (locMean l s12 e12))
  | _, _, _ => none

/-- The whole pipeline: normalize the uploaded files, then run the
model; any failure gives `none`. -/
def analyzeFiles (files : List (List RawRecord)) : Option (ℚ × ℚ × ℚ × ℚ) :=
  match normalizeFiles files with
  | .error _ => none
  | .ok l => analyze l

/-- app.py line 167: `lt1 = cp * 0.75`. -/
def lt1 (cp : ℚ) : ℚ :=
  cp * 0.75

/-- app.py lines 168-173: the four rows (Domain, Start, End) of the
intensity-domain table, in source order.  The `End` of the last row is
`map_watts + 150`, the chart's finite display width for the open-ended
Extreme domain. -/
def domain_ranges (cp mp : ℚ) : List (String × ℚ × ℚ) :=
  [("Moderate", 0, lt1 cp), ("Heavy", lt1 cp, cp),
   ("Severe", cp, mp), ("Extreme", mp, mp + 150)]

/-- app.py line 146: `np.arange(cp + 10, cp + 310, 10)`, i.e. the 30
probe powers `cp + 10, cp + 20, ..., cp + 300`. -/
def step_powers (cp : ℚ) : List ℚ :=
  (List.range 30).map (fun k : Nat => cp + 10 + 10 * (k : ℚ))

/-- app.py line 147: `w_prime / (step_powers - cp)`. -/
def depletion_times (cp w_prime : ℚ) : List ℚ :=
  (step_powers cp).map (fun p => w_prime / (p - cp))

/-- app.py line 106: `oxygen_demand = watts * 0.2`. -/
def oxygen_demand (w : ℚ) : ℚ :=
  w * 0.2

/-- app.py line 107: `np.where(watts <= cp, watts * 0.2,
cp * 0.2 + (watts - cp) * 0.05)`. -/
def oxygen_uptake (cp w : ℚ) : ℚ :=
  if w ≤ cp then w * 0.2 else cp * 0.2 + (w - cp) * 0.05

/-- Natural-number twin of `prefixSumsFrom`, used to evaluate the
pipeline on integer-valued power series. -/
def prefixSumsFromNat (c : Nat) : List Nat → List Nat
  | [] => [c]
  | a :: l => c :: prefixSumsFromNat (c + a) l

/-- Natural-number twin of `prefixSums`. -/
def prefixSumsNat (nl : List Nat) : List Nat :=
  prefixSumsFromNat 0 nl

/-- Natural-number twin of `rollingSums`. -/
def rollingSumsNat (w : Nat) (nl : List Nat) : List Nat :=
  List.zipWith (fun a b => a - b) ((prefixSumsNat nl).drop w) (prefixSumsNat nl)

/-- Natural-number twin of `idxmaxAux`. -/
def idxmaxAuxNat : Nat → Nat → Nat → List Nat → Nat
  | _, bi, _, [] => bi
  | i, bi, bv, a :: l =>
    if bv < a then idxmaxAuxNat (i + 1) i a l else idxmaxAuxNat (i + 1) bi bv l

/-- Natural-number twin of `idxmax`. -/
def idxmaxNat : List Nat → Option Nat
  | [] => none
  | a :: l => some (idxmaxAuxNat 1 0 a l)

/-- Natural-number twin of `get_peak_interval` (the argmax of the
window means equals the argmax of the window sums, so means are not
needed); see `get_peak_interval_cast`. -/
def get_peak_intervalNat (nl : List Nat) (w : Nat) : Option (Nat × Nat) :=
  match idxmaxNat (rollingSumsNat w nl) with
  | none => none
  | some j => some (j, j + w)

/-- A 360-second file at a constant 1 W. -/
def fileA : List RawRecord :=
  List.replicate 360 ⟨.val 0, .val 1⟩

/-- A 360-second file at a constant 0 W. -/
def fileB : List RawRecord :=
  List.replicate 360 ⟨.val 0, .val 0⟩

/-- Integer power series of the concatenation fileA ++ fileB. -/
def natAB : List Nat :=
  List.replicate 360 1 ++ List.replicate 360 0

/-- Integer power series of the concatenation fileB ++ fileA. -/
def natBA : List Nat :=
  List.replicate 360 0 ++ List.replicate 360 1

/-- Integer power series for the C1 evaluation: 180 seconds at 400 W
followed by a single 0 W second. -/
def natC1 : List Nat :=
  List.replicate 180 400 ++ [0]

/-- The C1 evaluation series as rationals. -/
def c1_series : List ℚ :=
  natC1.map (Nat.cast : Nat → ℚ)

/-- The example file of the spec: second record misses power, third has
NaN power. -/
def exFile : List RawRecord :=
  [⟨.val 1, .val 100⟩, ⟨.val 2, .missing⟩, ⟨.val 3, .nan⟩, ⟨.val 4, .val 120⟩]

theorem prefixSumsFrom_length (c : ℚ) (l : List ℚ) :
    (prefixSumsFrom c l).length = l.length + 1 := by
  induction l generalizing c with
  | nil => rfl
  | cons a l ih => simp [prefixSumsFrom, ih]

theorem prefixSumsFrom_eq (c : ℚ) (l : List ℚ) :
    prefixSumsFrom c l =
      (List.range (l.length + 1)).map (fun j => c + (l.take j).sum) := by
  induction l generalizing c with
  | nil => simp [prefixSumsFrom]
  | cons a l ih =>
    rw [prefixSumsFrom, ih]
    conv_rhs =>
      rw [show (a :: l).length + 1 = (l.length + 1) + 1 by simp,
        List.range_succ_eq_map]
    simp [List.map_map, Function.comp, List.take_succ_cons, add_assoc]

theorem prefixSums_eq (l : List ℚ) :
    prefixSums l = (List.range (l.length + 1)).map (fun j => (l.take j).sum) := by
  simp [prefixSums, prefixSumsFrom_eq]

theorem rollingSums_length (w : Nat) (l : List ℚ) :
    (rollingSums w l).length = l.length + 1 - w := by
  simp only [rollingSums, List.length_zipWith, List.length_drop, prefixSums,
    prefixSumsFrom_length]
  omega

theorem rollingSums_eq (w : Nat) (l : List ℚ) :
    rollingSums w l =
      (List.range (l.length + 1 - w)).map (fun j => ((l.drop j).take w).sum) := by
  apply List.ext_getElem
  · simp [rollingSums_length]
  · intro i h1 h2
    simp only [rollingSums]
    rw [List.getElem_zipWith, List.getElem_drop]
    simp only [prefixSums_eq, List.getElem_map, List.getElem_range]
    rw [show w + i = i + w from Nat.add_comm w i, List.take_add, List.sum_append]
    exact add_sub_cancel_left _ _

theorem rollingMeans_length (w : Nat) (l : List ℚ) :
    (rollingMeans w l).length = l.length + 1 - w := by
  simp [rollingMeans, rollingSums_length]

theorem prefixSumsFromNat_length (c : Nat) (nl : List Nat) :
    (prefixSumsFromNat c nl).length = nl.length + 1 := by
  induction nl generalizing c with
  | nil => rfl
  | cons a l ih => simp [prefixSumsFromNat, ih]

theorem prefixSumsFromNat_eq (c : Nat) (nl : List Nat) :
    prefixSumsFromNat c nl =
      (List.range (nl.length + 1)).map (fun j => c + (nl.take j).sum) := by
  induction nl generalizing c with
  | nil => simp [prefixSumsFromNat]
  | cons a l ih =>
    rw [prefixSumsFromNat, ih]
    conv_rhs =>
      rw [show (a :: l).length + 1 = (l.length + 1) + 1 by simp,
        List.range_succ_eq_map]
    simp [List.map_map, Function.comp, List.take_succ_cons, Nat.add_assoc]

theorem prefixSumsNat_eq (nl : List Nat) :
    prefixSumsNat nl =
      (List.range (nl.length + 1)).map (fun j => (nl.take j).sum) := by
  simp [prefixSumsNat, prefixSumsFromNat_eq]

theorem rollingSumsNat_eq (w : Nat) (nl : List Nat) :
    rollingSumsNat w nl =
      (List.range (nl.length + 1 - w)).map (fun j => ((nl.drop j).take w).sum) := by
  apply List.ext_getElem
  · simp only [rollingSumsNat, List.length_zipWith, List.length_drop,
      prefixSumsNat, prefixSumsFromNat_length, List.length_map,
      List.length_range]
    omega
  · intro i h1 h2
    simp only [rollingSumsNat]
    rw [List.getElem_zipWith, List.getElem_drop]
    simp only [prefixSumsNat_eq, List.getElem_map, List.getElem_range]
    rw [show w + i = i + w from Nat.add_comm w i, List.take_add, List.sum_append]
    exact Nat.add_sub_cancel_left _ _


theorem rollingSums_cast (w : Nat) (nl : List Nat) :
    rollingSums w (nl.map (Nat.cast : Nat → ℚ)) =
      (rollingSumsNat w nl).map (Nat.cast : Nat → ℚ) := by
  rw [rollingSums_eq, rollingSumsNat_eq, List.map_map]
  simp only [List.length_map]
  apply List.map_congr_left
  intro j _
  simp only [Function.comp_apply, ← List.map_drop, ← List.map_take]
  exact (Nat.cast_list_sum _).symm

theorem rollingMeans_cast (w : Nat) (nl : List Nat) :
    rollingMeans w (nl.map (Nat.cast : Nat → ℚ)) =
      (rollingSumsNat w nl).map (fun s : Nat => (s : ℚ) / (w : ℚ)) := by
  rw [rollingMeans, rollingSums_cast, List.map_map]
  rfl

theorem idxmaxAux_map_div (c : ℚ) (hc : 0 < c) :
    ∀ (l : List ℚ) (i bi : Nat) (bv : ℚ),
      idxmaxAux i bi (bv / c) (l.map (fun x => x / c)) = idxmaxAux i bi bv l := by
  intro l
  induction l with
  | nil => intro i bi bv; rfl
  | cons a l ih =>
    intro i bi bv
    simp only [List.map_cons, idxmaxAux, div_lt_div_iff_of_pos_right hc]
    split
    · exact ih _ _ _
    · exact ih _ _ _

theorem idxmax_map_div (c : ℚ) (hc : 0 < c) (l : List ℚ) :
    idxmax (l.map (fun x => x / c)) = idxmax l := by
  cases l with
  | nil => rfl
  | cons a l =>
    simp only [List.map_cons, idxmax]
    rw [idxmaxAux_map_div c hc]

theorem idxmaxAux_cast :
    ∀ (nl : List Nat) (i bi bv : Nat),
      idxmaxAux i bi (bv : ℚ) (nl.map (Nat.cast : Nat → ℚ)) =
        idxmaxAuxNat i bi bv nl := by
  intro nl
  induction nl with
  | nil => intro i bi bv; rfl
  | cons a l ih =>
    intro i bi bv
    simp only [List.map_cons, idxmaxAux, idxmaxAuxNat, Nat.cast_lt]
    split
    · exact ih _ _ _
    · exact ih _ _ _

theorem idxmax_cast (nl : List Nat) :
    idxmax (nl.map (Nat.cast : Nat → ℚ)) = idxmaxNat nl := by
  cases nl with
  | nil => rfl
  | cons a l =>
    simp only [List.map_cons, idxmax, idxmaxNat]
    rw [idxmaxAux_cast]

theorem get_peak_interval_cast (nl : List Nat) (w : Nat) (hw : 0 < w) :
    get_peak_interval (nl.map (Nat.cast : Nat → ℚ)) w =
      get_peak_intervalNat nl w := by
  unfold get_peak_interval get_peak_intervalNat
  rw [rollingMeans_cast]
  have hmm : (rollingSumsNat w nl).map (fun s : Nat => (s : ℚ) / (w : ℚ)) =
      ((rollingSumsNat w nl).map (Nat.cast : Nat → ℚ)).map
        (fun x => x / (w : ℚ)) := by
    rw [List.map_map]; rfl
  rw [hmm, idxmax_map_div _ (by exact_mod_cast hw), idxmax_cast]

theorem locMean_cast (nl : List Nat) (s e : Nat) :
    locMean (nl.map (Nat.cast : Nat → ℚ)) s e =
      ((((nl.drop s).take (e + 1 - s)).sum : Nat) : ℚ) /
        ((((nl.drop s).take (e + 1 - s)).length : Nat) : ℚ) := by
  simp only [locMean, ← List.map_drop, ← List.map_take, List.length_map]
  rw [Nat.cast_list_sum]

theorem rowPower_eq_none_of_not_bothPresent (r : RawRecord)
    (h : bothPresent r = false) : rowPower r = none := by
  rcases r with ⟨t, p⟩
  cases t <;> cases p <;> simp_all [bothPresent, rowPower]

theorem validPowers_filter (rs : List RawRecord) :
    validPowers (rs.filter bothPresent) = validPowers rs := by
  induction rs with
  | nil => rfl
  | cons r rs ih =>
    by_cases h : bothPresent r = true
    · simp [validPowers, List.filter_cons, h, List.filterMap_cons] at ih ⊢
      rw [ih]
    · have hn : rowPower r = none :=
        rowPower_eq_none_of_not_bothPresent r (by simpa using h)
      simp [validPowers, List.filter_cons, h, List.filterMap_cons, hn] at ih ⊢
      exact ih

theorem processFile_ok (rs : List RawRecord) (l : List ℚ)
    (h : processFile rs = .ok l) : l = validPowers rs := by
  unfold processFile at h
  by_cases he : (rs.filter bothPresent).isEmpty
  · simp [he] at h
  · simp [he] at h
    rw [← h, validPowers_filter]

theorem normalizeFiles_ok (files : List (List RawRecord)) (l : List ℚ)
    (h : normalizeFiles files = .ok l) :
    l = (files.map validPowers).flatten := by
  induction files generalizing l with
  | nil =>
    simp [normalizeFiles] at h
    simp [← h]
  | cons f fs ih =>
    unfold normalizeFiles at h
    cases hf : processFile f with
    | error e => rw [hf] at h; exact absurd h (by simp)
    | ok lf =>
      rw [hf] at h
      cases hfs : normalizeFiles fs with
      | error e => rw [hfs] at h; exact absurd h (by simp)
      | ok ls =>
        rw [hfs] at h
        simp at h
        rw [← h, processFile_ok f lf hf, ih ls hfs]
        simp

theorem isErr_normalizeFiles (files : List (List RawRecord)) :
    isErr (normalizeFiles files) =
      files.any (fun f => (f.filter bothPresent).isEmpty) := by
  induction files with
  | nil => rfl
  | cons f fs ih =>
    rw [List.any_cons]
    unfold normalizeFiles
    by_cases he : (f.filter bothPresent).isEmpty
    · simp [processFile, he, isErr]
    · simp only [processFile, he, if_false]
      cases hfs : normalizeFiles fs with
      | error e =>
        have ha : fs.any (fun f => (f.filter bothPresent).isEmpty) = true := by
          rw [← ih, hfs]; rfl
        simp [isErr, ha, he]
      | ok ls =>
        have ha : fs.any (fun f => (f.filter bothPresent).isEmpty) = false := by
          rw [← ih, hfs]; rfl
        simp [isErr, ha, he]

theorem validPowers_replicate (n : Nat) (t p : ℚ) :
    validPowers (List.replicate n ⟨.val t, .val p⟩) = List.replicate n p := by
  induction n with
  | zero => rfl
  | succ m ih =>
    simp only [List.replicate_succ, validPowers, List.filterMap_cons] at ih ⊢
    rw [show rowPower ⟨.val t, .val p⟩ = some p from rfl, ih]

theorem processFile_replicate (n : Nat) (hn : n ≠ 0) (t p : ℚ) :
    processFile (List.replicate n ⟨.val t, .val p⟩) = .ok (List.replicate n p) := by
  obtain ⟨m, rfl⟩ : ∃ m, n = m + 1 := ⟨n - 1, by omega⟩
  have hf : (List.replicate (m + 1) (⟨.val t, .val p⟩ : RawRecord)).filter
      bothPresent = List.replicate (m + 1) ⟨.val t, .val p⟩ := by
    rw [List.filter_eq_self]
    intro a ha
    rw [List.eq_of_mem_replicate ha]
    rfl
  simp only [processFile]
  rw [hf, validPowers_replicate]
  simp [List.replicate_succ]

theorem normalizeFiles_AB :
    normalizeFiles [fileA, fileB] = .ok (natAB.map (Nat.cast : Nat → ℚ)) := by
  have hA : processFile fileA = .ok (List.replicate 360 (1 : ℚ)) :=
    processFile_replicate 360 (by norm_num) 0 1
  have hB : processFile fileB = .ok (List.replicate 360 (0 : ℚ)) :=
    processFile_replicate 360 (by norm_num) 0 0
  simp only [normalizeFiles, hA, hB, List.append_nil, natAB, List.map_append,
    List.map_replicate, Nat.cast_one, Nat.cast_zero]

theorem normalizeFiles_BA :
    normalizeFiles [fileB, fileA] = .ok (natBA.map (Nat.cast : Nat → ℚ)) := by
  have hA : processFile fileA = .ok (List.replicate 360 (1 : ℚ)) :=
    processFile_replicate 360 (by norm_num) 0 1
  have hB : processFile fileB = .ok (List.replicate 360 (0 : ℚ)) :=
    processFile_replicate 360 (by norm_num) 0 0
  simp only [normalizeFiles, hA, hB, List.append_nil, natBA, List.map_append,
    List.map_replicate, Nat.cast_one, Nat.cast_zero]

theorem analyze_of_peaks (l : List ℚ) (s3 e3 s6 e6 s12 e12 : Nat)
    (h3 : get_peak_interval l 180 = some (s3, e3))
    (h6 : get_peak_interval l 360 = some (s6, e6))
    (h12 : get_peak_interval l 720 = some (s12, e12)) :
    analyze l =
      some (cpModel (locMean l s3 e3) (locMean l s6 e6) (locMean l s12 e12)) := by
  unfold analyze
  rw [h3, h6, h12]

set_option maxRecDepth 40000

theorem peak_AB_180 : get_peak_intervalNat natAB 180 = some (0, 180) := by decide

theorem peak_AB_360 : get_peak_intervalNat natAB 360 = some (0, 360) := by decide

theorem peak_AB_720 : get_peak_intervalNat natAB 720 = some (0, 720) := by decide

theorem peak_BA_180 : get_peak_intervalNat natBA 180 = some (360, 540) := by decide

theorem peak_BA_360 : get_peak_intervalNat natBA 360 = some (360, 720) := by decide

theorem peak_BA_720 : get_peak_intervalNat natBA 720 = some (0, 720) := by decide

theorem analyzeFiles_AB :
    analyzeFiles [fileA, fileB] = some (1/3, 120, 360/361, 361/1080) := by
  unfold analyzeFiles
  rw [normalizeFiles_AB]
  show analyze (natAB.map (Nat.cast : Nat → ℚ)) = some (1/3, 120, 360/361, 361/1080)
  rw [analyze_of_peaks _ 0 180 0 360 0 720
    (by rw [get_peak_interval_cast _ _ (by norm_num)]; exact peak_AB_180)
    (by rw [get_peak_interval_cast _ _ (by norm_num)]; exact peak_AB_360)
    (by rw [get_peak_interval_cast _ _ (by norm_num)]; exact peak_AB_720)]
  rw [locMean_cast, locMean_cast, locMean_cast]
  rw [show ((natAB.drop 0).take (180 + 1 - 0)).sum = 181 from by decide,
    show ((natAB.drop 0).take (180 + 1 - 0)).length = 181 from by decide,
    show ((natAB.drop 0).take (360 + 1 - 0)).sum = 360 from by decide,
    show ((natAB.drop 0).take (360 + 1 - 0)).length = 361 from by decide,
    show ((natAB.drop 0).take (720 + 1 - 0)).sum = 360 from by decide,
    show ((natAB.drop 0).take (720 + 1 - 0)).length = 720 from by decide]
  norm_num [cpModel]

theorem analyzeFiles_BA :
    analyzeFiles [fileB, fileA] = some (1/3, 120, 1, 1/3) := by
  unfold analyzeFiles
  rw [normalizeFiles_BA]
  show analyze (natBA.map (Nat.cast : Nat → ℚ)) = some (1/3, 120, 1, 1/3)
  rw [analyze_of_peaks _ 360 540 360 720 0 720
    (by rw [get_peak_interval_cast _ _ (by norm_num)]; exact peak_BA_180)
    (by rw [get_peak_interval_cast _ _ (by norm_num)]; exact peak_BA_360)
    (by rw [get_peak_interval_cast _ _ (by norm_num)]; exact peak_BA_720)]
  rw [locMean_cast, locMean_cast, locMean_cast]
  rw [show ((natBA.drop 360).take (540 + 1 - 360)).sum = 181 from by decide,
    show ((natBA.drop 360).take (540 + 1 - 360)).length = 181 from by decide,
    show ((natBA.drop 360).take (720 + 1 - 360)).sum = 360 from by decide,
    show ((natBA.drop 360).take (720 + 1 - 360)).length = 360 from by decide,
    show ((natBA.drop 0).take (720 + 1 - 0)).sum = 360 from by decide,
    show ((natBA.drop 0).take (720 + 1 - 0)).length = 720 from by decide]
  norm_num [cpModel]

/-- Claim C1 (code bug evaluation): on the 181-second series
`c1_series` (180 s at 400 W, then one second at 0 W) with window
`w = 180`, the extractor selects the maximal window correctly
(`(start, end) = (0, 180)`, whose true 180-sample mean is 400 W and
which beats every other window), but the mean the script then reports
via `combined_power.loc[start:end].mean()` averages the 181 samples
`start .. end` INCLUSIVE, giving `72000/181 ≈ 397.8 W`, which is not
the mean of the maximal window. -/
theorem C1_peak_mean_off_by_one :
    get_peak_interval c1_series 180 = some (0, 180) ∧
    (rollingMeans 180 c1_series)[0]? = some 400 ∧
    (∀ m ∈ rollingMeans 180 c1_series, m ≤ 400) ∧
    locMean c1_series 0 180 = 72000 / 181 ∧
    (72000 / 181 : ℚ) ≠ 400 := by
  refine ⟨?_, ?_, ?_, ?_, by norm_num⟩
  · simp only [c1_series]
    rw [get_peak_interval_cast _ _ (by norm_num)]
    decide
  · simp only [c1_series]
    rw [rollingMeans_cast, List.getElem?_map,
      show (rollingSumsNat 180 natC1)[0]? = some 72000 from by decide]
    simp only [Option.map_some']
    norm_num
  · intro m hm
    simp only [c1_series] at hm
    rw [rollingMeans_cast] at hm
    simp only [List.mem_map] at hm
    obtain ⟨s, hs, rfl⟩ := hm
    have hall : ∀ x ∈ rollingSumsNat 180 natC1, x ≤ 72000 := by decide
    have hsle := hall s hs
    rw [div_le_iff₀ (by norm_num : (0 : ℚ) < ((180 : Nat) : ℚ))]
    have : ((s : ℚ)) ≤ ((72000 : Nat) : ℚ) := by exact_mod_cast hsle
    norm_num at this ⊢
    linarith
  · simp only [c1_series]
    rw [locMean_cast,
      show ((natC1.drop 0).take (180 + 1 - 0)).sum = 72000 from by decide,
      show ((natC1.drop 0).take (180 + 1 - 0)).length = 181 from by decide]
    norm_num

/-- Claim C2: the Critical Power Model computes
`cp = (P12*720 - P3*180)/(720 - 180)`, `w_prime = (P3 - cp)*180`,
`map_watts = P6` and `fractional_utilisation = cp/map_watts`; for
`P3 = 400`, `P6 = 300`, `P12 = 250` it yields `cp = 200`,
`w_prime = 36000`, `map_watts = 300` and
`fractional_utilisation = 200/300 = 2/3`. -/
theorem C2_cp_model :
    (∀ p3 p6 p12 : ℚ,
      cpModel p3 p6 p12 =
        ((p12 * 720 - p3 * 180) / (720 - 180),
         (p3 - (p12 * 720 - p3 * 180) / (720 - 180)) * 180,
         p6,
         (p12 * 720 - p3 * 180) / (720 - 180) / p6)) ∧
    cpModel 400 300 250 = (200, 36000, 300, 200 / 300) ∧
    (200 / 300 : ℚ) = 2 / 3 := by
  refine ⟨fun p3 p6 p12 => rfl, ?_, by norm_num⟩
  norm_num [cpModel]

/-- Claim C3: for a window `w ≥ 1`, the Peak-Interval Extractor fails
(the all-NaN `idxmax` error that the spec labels InsufficientDataError)
if and only if the series is shorter than the window, and whenever
`w ≤ length` it succeeds, returning an interval `(s, s + w)` of exactly
`w` samples. -/
theorem C3_insufficient_data_iff (l : List ℚ) (w : Nat) (_hw : 1 ≤ w) :
    ((get_peak_interval l w).isNone ↔ l.length < w) ∧
    (w ≤ l.length → ∃ s, get_peak_interval l w = some (s, s + w)) := by
  have hlen := rollingMeans_length w l
  unfold get_peak_interval
  cases hm : rollingMeans w l with
  | nil =>
    rw [hm] at hlen
    simp only [List.length_nil] at hlen
    simp only [idxmax, Option.isNone_none]
    constructor
    · constructor
      · intro _; omega
      · intro _; trivial
    · intro hwl; omega
  | cons a t =>
    rw [hm] at hlen
    simp only [List.length_cons] at hlen
    simp only [idxmax, Option.isNone_some]
    constructor
    · constructor
      · intro h; exact absurd h (by simp)
      · intro h; omega
    · intro _; exact ⟨idxmaxAux 1 0 a t, rfl⟩

/-- Witness for C3 at the concrete input `l = [5]`, `w = 2`: the
extractor fails and indeed `1 < 2`; the success part holds vacuously. -/
theorem C3_insufficient_data_iff_witness :
    (1 ≤ 2) ∧
    (((get_peak_interval [(5 : ℚ)] 2).isNone ↔ [(5 : ℚ)].length < 2) ∧
      (2 ≤ [(5 : ℚ)].length →
        ∃ s, get_peak_interval [(5 : ℚ)] 2 = some (s, s + 2))) :=
  ⟨by norm_num, C3_insufficient_data_iff [(5 : ℚ)] 2 (by norm_num)⟩

/-- Claim C4: on success the Series Normalizer output is exactly the
concatenation, in file-supply order, of each file's valid records (those
having both fields with actual numbers), and the combined series pairs
these powers with the synthetic second indices 0, 1, 2, ... -/
theorem C4_series_normalizer (files : List (List RawRecord)) (l : List ℚ)
    (h : normalizeFiles files = .ok l) :
    l = (files.map validPowers).flatten ∧
    combinedSeries files = .ok ((files.map validPowers).flatten.enum) := by
  have h1 := normalizeFiles_ok files l h
  refine ⟨h1, ?_⟩
  unfold combinedSeries
  rw [h, h1]

/-- Witness for C4 at the spec's example file
`[(t:1,p:100), (t:2,-), (t:3,NaN), (t:4,p:120)]`: normalization keeps
the two valid samples and indexes them as `[(0,100),(1,120)]`. -/
theorem C4_series_normalizer_witness :
    normalizeFiles [exFile] = .ok [100, 120] ∧
    combinedSeries [exFile] = .ok [(0, 100), (1, 120)] := by
  have h := C4_series_normalizer [exFile] [100, 120] (by rfl)
  refine ⟨by rfl, ?_⟩
  rw [h.2]
  rfl

/-- Claim C5: with `lt1 = 0.75 * cp`, the Zone Calculator produces the
four domains Moderate, Heavy, Severe, Extreme in that order with start
boundaries `0, lt1, cp, map_watts`, and (for physiologically ordered
inputs `0 ≤ cp ≤ map_watts`) the intervals `[0, lt1)`, `[lt1, cp)`,
`[cp, map_watts)` and the open-ended `[map_watts, ∞)` cover every
`x ≥ 0` and are pairwise disjoint. -/
theorem C5_intensity_domains (cp mp : ℚ) (h0 : 0 ≤ cp) (hcm : cp ≤ mp) :
    (domain_ranges cp mp).map Prod.fst =
      ["Moderate", "Heavy", "Severe", "Extreme"] ∧
    (domain_ranges cp mp).map (fun d => d.2.1) = [0, lt1 cp, cp, mp] ∧
    (∀ x : ℚ, 0 ≤ x →
      ((0 ≤ x ∧ x < lt1 cp) ∨ (lt1 cp ≤ x ∧ x < cp) ∨
        (cp ≤ x ∧ x < mp) ∨ mp ≤ x)) ∧
    (∀ x : ℚ,
      ¬((0 ≤ x ∧ x < lt1 cp) ∧ (lt1 cp ≤ x ∧ x < cp)) ∧
      ¬((0 ≤ x ∧ x < lt1 cp) ∧ (cp ≤ x ∧ x < mp)) ∧
      ¬((0 ≤ x ∧ x < lt1 cp) ∧ mp ≤ x) ∧
      ¬((lt1 cp ≤ x ∧ x < cp) ∧ (cp ≤ x ∧ x < mp)) ∧
      ¬((lt1 cp ≤ x ∧ x < cp) ∧ mp ≤ x) ∧
      ¬((cp ≤ x ∧ x < mp) ∧ mp ≤ x)) := by
  have hl : lt1 cp ≤ cp := by unfold lt1; nlinarith
  refine ⟨rfl, rfl, ?_, ?_⟩
  · intro x hx
    rcases lt_or_le x (lt1 cp) with h1 | h1
    · exact Or.inl ⟨hx, h1⟩
    rcases lt_or_le x cp with h2 | h2
    · exact Or.inr (Or.inl ⟨h1, h2⟩)
    rcases lt_or_le x mp with h3 | h3
    · exact Or.inr (Or.inr (Or.inl ⟨h2, h3⟩))
    · exact Or.inr (Or.inr (Or.inr h3))
  · intro x
    refine ⟨fun h => ?_, fun h => ?_, fun h => ?_, fun h => ?_,
      fun h => ?_, fun h => ?_⟩
    · obtain ⟨⟨_, a⟩, b, _⟩ := h; linarith
    · obtain ⟨⟨_, a⟩, b, _⟩ := h; linarith
    · obtain ⟨⟨_, a⟩, b⟩ := h; linarith
    · obtain ⟨⟨_, a⟩, b, _⟩ := h; linarith
    · obtain ⟨⟨_, a⟩, b⟩ := h; linarith
    · obtain ⟨⟨_, a⟩, b⟩ := h; linarith

/-- Witness for C5 at `cp = 200`, `map_watts = 300`: the hypotheses
hold and the boundaries come out as 150, 200, 300 W. -/
theorem C5_intensity_domains_witness :
    (0 ≤ (200 : ℚ)) ∧ ((200 : ℚ) ≤ 300) ∧
    lt1 200 = 150 ∧
    (domain_ranges 200 300).map (fun d => d.2.1) = [0, 150, 200, 300] := by
  have h := C5_intensity_domains 200 300 (by norm_num) (by norm_num)
  refine ⟨by norm_num, by norm_num, by norm_num [lt1], ?_⟩
  rw [h.2.1]
  norm_num [lt1]

/-- Claim C6: the depletion table has exactly 30 probe powers
`cp + 10*(i+1)` for `i = 0..29` (i.e. `cp+10 .. cp+300` in 10 W steps,
all strictly above `cp`), and the matching entry of the time table is
`w_prime / (p - cp)`. -/
theorem C6_depletion_table (cp w_prime : ℚ) (i : Nat) (h : i < 30) :
    (step_powers cp).length = 30 ∧
    (step_powers cp)[i]? = some (cp + 10 * ((i : ℚ) + 1)) ∧
    (depletion_times cp w_prime)[i]? =
      some (w_prime / ((cp + 10 * ((i : ℚ) + 1)) - cp)) ∧
    (∀ p ∈ step_powers cp, cp < p) := by
  have hget : (step_powers cp)[i]? = some (cp + 10 * ((i : ℚ) + 1)) := by
    rw [step_powers, List.getElem?_map, List.getElem?_range h]
    simp only [Option.map_some', Option.some.injEq]
    ring
  refine ⟨by simp [step_powers], hget, ?_, ?_⟩
  · rw [depletion_times, List.getElem?_map, hget]
    rfl
  · intro p hp
    simp only [step_powers, List.mem_map, List.mem_range] at hp
    obtain ⟨k, _, rfl⟩ := hp
    have hk : (0 : ℚ) ≤ (k : ℚ) := Nat.cast_nonneg k
    linarith

/-- Witness for C6 at `cp = 200`, `w_prime = 36000`, `i = 4`: the probe
power is 250 W and its predicted time to exhaustion is 720 s. -/
theorem C6_depletion_table_witness :
    (4 < 30) ∧
    (step_powers 200)[4]? = some 250 ∧
    (depletion_times 200 36000)[4]? = some 720 := by
  have h := C6_depletion_table 200 36000 4 (by norm_num)
  refine ⟨by norm_num, ?_, ?_⟩
  · rw [h.2.1]; norm_num
  · rw [h.2.2.1]; norm_num

/-- Counterexample to claim C7: with one valid file and one file that
decodes to zero records, the run aborts (the per-file `KeyError` on the
empty frame) even though one valid sample remains after filtering all
supplied files - so "fails exactly when zero valid samples remain" is
false as stated. -/
theorem C7_empty_input_counterexample :
    isErr (normalizeFiles
      [[(⟨.val 1, .val 100⟩ : RawRecord)], ([] : List RawRecord)]) = true ∧
    (([[(⟨.val 1, .val 100⟩ : RawRecord)], ([] : List RawRecord)].map
      validPowers).flatten).length = 1 :=
  ⟨rfl, rfl⟩

/-- Claim C7 amended: the normalization stage fails exactly when SOME
supplied file has no record carrying both fields (pandas raises a
per-file `KeyError` on such a file, even if other files still hold
valid samples); when every file has at least one such record the run
does not abort and the combined series is exactly the concatenation of
the per-file valid samples. -/
theorem C7_empty_input_amended :
    (∀ files : List (List RawRecord),
      isErr (normalizeFiles files) =
        files.any (fun f => (f.filter bothPresent).isEmpty)) ∧
    (∀ files : List (List RawRecord),
      isErr (normalizeFiles files) = false →
        normalizeFiles files = .ok ((files.map validPowers).flatten)) := by
  refine ⟨isErr_normalizeFiles, ?_⟩
  intro files hf
  cases h : normalizeFiles files with
  | error e => rw [h] at hf; exact absurd hf (by simp [isErr])
  | ok l =>
    exact congrArg Except.ok (normalizeFiles_ok files l h)

/-- Witness for C7 (amended): a single all-valid file does not abort
and yields its own samples. -/
theorem C7_empty_input_amended_witness :
    isErr (normalizeFiles [[(⟨.val 1, .val 100⟩ : RawRecord)]]) = false ∧
    normalizeFiles [[(⟨.val 1, .val 100⟩ : RawRecord)]] =
      .ok ((([[(⟨.val 1, .val 100⟩ : RawRecord)]].map validPowers)).flatten) :=
  ⟨rfl, C7_empty_input_amended.2 [[(⟨.val 1, .val 100⟩ : RawRecord)]] rfl⟩

/-- Counterexample to claim C9: the same two files supplied in the two
possible orders give different final metrics, because peak windows that
span the file boundary differ between concatenation orders. -/
theorem C9_order_counterexample :
    analyzeFiles [fileA, fileB] ≠ analyzeFiles [fileB, fileA] := by
  rw [analyzeFiles_AB, analyzeFiles_BA]
  intro h
  injection h with h'
  have hmap : (360 / 361 : ℚ) = 1 :=
    congrArg (fun t : ℚ × ℚ × ℚ × ℚ => t.2.2.1) h'
  norm_num at hmap

/-- Claim C9 amended: permuting the uploaded files changes the
concatenated series and CAN change the final metrics.  For fileA
(360 s at 1 W) and fileB (360 s at 0 W), both orders agree on CP
(1/3 W) and on W-prime (120 J), but MAP is 360/361 W for [A, B]
versus 1 W for [B, A], and fractional utilisation is 361/1080 versus
1/3. -/
theorem C9_order_dependence :
    analyzeFiles [fileA, fileB] = some (1 / 3, 120, 360 / 361, 361 / 1080) ∧
    analyzeFiles [fileB, fileA] = some (1 / 3, 120, 1, 1 / 3) ∧
    (360 / 361 : ℚ) ≠ 1 :=
  ⟨analyzeFiles_AB, analyzeFiles_BA, by norm_num⟩

/-- Claim C10: for every `cp` and every probe power `w`, the oxygen
uptake of the piecewise model never exceeds the oxygen demand `0.2 * w`,
with equality exactly when `w ≤ cp` (below CP the curves coincide, above
CP the demand exceeds the uptake by `0.15 * (w - cp) > 0`). -/
theorem C10_oxygen_gap (cp w : ℚ) :
    oxygen_uptake cp w ≤ oxygen_demand w ∧
    (oxygen_uptake cp w = oxygen_demand w ↔ w ≤ cp) := by
  unfold oxygen_uptake oxygen_demand
  by_cases h : w ≤ cp
  · rw [if_pos h]
    exact ⟨le_refl _, by simp [h]⟩
  · rw [if_neg h]
    push_neg at h
    constructor
    · nlinarith
    · constructor
      · intro he
        exfalso
        nlinarith
      · intro hw
        exact absurd hw (not_le.mpr h)
